import Mathlib

/-!
Shallow embedding of the FCVRP results-comparison engine found in
`src/FC-VRP-RESULTS.py`: the data loader (`load_data`), the instance
classifier (`categorize_instances`), the comparison engine
(`calculate_statistics`) and the instance reporter
(`display_instance_detail`), together with proofs of the specified
properties.  Python dictionaries are modelled as insertion-ordered
association lists over string keys; JSON numbers are modelled as
rationals; Streamlit UI calls (`st.error`, `st.warning`) are modelled
as boolean flags on the loader outcome.
-/

namespace FCVRP

/-- One entry of the results mapping `fcvrp_results_ILS.json`, as the
source accesses it: `data['cost']`, `data['solving_time_seconds']`,
`data['timestamp']`, `data['solution_file']`, `data['visualization_file']`. -/
structure InstanceData where
  cost : Rat
  solving_time_seconds : Rat
  timestamp : String
  solution_file : String
  visualization_file : String
  deriving DecidableEq, Repr

/-- A Python dict keyed by strings, modelled as an insertion-ordered
association list. -/
abbrev Dict (α : Type) : Type := List (String × α)

/-- Dictionary lookup, modelling Python `d[key]` / `key in d`. -/
def dictLookup {α : Type} : Dict α → String → Option α
  | [], _ => none
  | (k, v) :: rest, key => if k = key then some v else dictLookup rest key

/-- Dictionary assignment `d[key] = val`: an existing key is updated in
place, a new key is appended at the end (Python dict semantics). -/
def dictInsert {α : Type} : Dict α → String → α → Dict α
  | [], key, val => [(key, val)]
  | (k, v) :: rest, key, val =>
      if k = key then (key, val) :: rest else (k, v) :: dictInsert rest key val

/-- Character-level worker for `basename`: the accumulator holds the
current path component reversed and is reset at every separator. -/
def basenameChars : List Char → List Char → List Char
  | [], acc => acc.reverse
  | c :: rest, acc =>
      if c = '/' then basenameChars rest [] else basenameChars rest (c :: acc)

/-- Model of `os.path.basename` on POSIX paths: the final path
component, i.e. everything after the last separator. -/
def basename (p : String) : String := ⟨basenameChars p.data []⟩

/-- One entry of the validation list `validation_results_ILS.json`:
`{instance: <path>, valid: <bool>}`.  The `instance` field is renamed
`instance_path` because `instance` is a Lean keyword. -/
structure ValidationItem where
  instance_path : String
  valid : Bool
  deriving DecidableEq, Repr

/-- The dict comprehension in `load_data`:
`{os.path.basename(item['instance']): item for item in validation_list}`.
A comprehension builds the dict by inserting entries in list order, so a
later entry with the same key overwrites an earlier one. -/
def buildValidation (validation_list : List ValidationItem) : Dict ValidationItem :=
  validation_list.foldl
    (fun acc item => dictInsert acc (basename item.instance_path) item) []

/-- Outcome of reading and JSON-parsing one external file: the file can
be absent (`FileNotFoundError`), present but failing to parse
(`json.JSONDecodeError`, a non-`FileNotFoundError` exception), or
parsed successfully. -/
inductive FileRead (α : Type) where
  | missing : FileRead α
  | malformed : FileRead α
  | ok : α → FileRead α
  deriving DecidableEq, Repr

/-- A mandatory-source failure: absent or unparseable. -/
def FileRead.failed {α : Type} : FileRead α → Bool
  | .missing => true
  | .malformed => true
  | .ok _ => false

/-- What `load_data` hands back: the three mappings together with
whether `st.error` (blocking error message) and `st.warning`
(non-fatal warning) were emitted. -/
structure LoadOutcome where
  results : Dict InstanceData
  best_known : Dict Rat
  validation_data : Dict ValidationItem
  errorShown : Bool
  warningShown : Bool
  deriving DecidableEq, Repr

/-- `load_data`: reads `fcvrp_results_ILS.json` and
`fcvrp_best_known.json` (mandatory), and `validation_results_ILS.json`
(optional).  A `FileNotFoundError` on the validation file is caught by
the inner handler: a warning is shown and an empty validation mapping
is used.  Any other exception — either mandatory file missing or
malformed, or the validation file malformed — reaches the outer
handler, which shows an error and returns three empty mappings. -/
def load_data (results_file : FileRead (Dict InstanceData))
    (best_known_file : FileRead (Dict Rat))
    (validation_file : FileRead (List ValidationItem)) : LoadOutcome :=
  match results_file with
  | .missing => { results := [], best_known := [], validation_data := [],
                  errorShown := true, warningShown := false }
  | .malformed => { results := [], best_known := [], validation_data := [],
                    errorShown := true, warningShown := false }
  | .ok results =>
    match best_known_file with
    | .missing => { results := [], best_known := [], validation_data := [],
                    errorShown := true, warningShown := false }
    | .malformed => { results := [], best_known := [], validation_data := [],
                      errorShown := true, warningShown := false }
    | .ok best_known =>
      match validation_file with
      | .missing => { results := results, best_known := best_known,
                      validation_data := [], errorShown := false, warningShown := true }
      | .malformed => { results := [], best_known := [], validation_data := [],
                        errorShown := true, warningShown := false }
      | .ok validation_list =>
          { results := results, best_known := best_known,
            validation_data := buildValidation validation_list,
            errorShown := false, warningShown := false }

/-- The validity test the classifier and the reporter both apply to a
single instance name: present in the validation mapping → its `valid`
flag; absent → assumed valid. -/
def assumedValid (validation_data : Dict ValidationItem) (name : String) : Bool :=
  match dictLookup validation_data name with
  | some v => v.valid
  | none => true

/-- `categorize_instances`: partitions the results mapping into valid
and invalid sub-mappings.  An instance present in the validation
mapping follows its `valid` flag; an absent one is assumed valid. -/
def categorize_instances :
    Dict InstanceData → Dict ValidationItem → Dict InstanceData × Dict InstanceData
  | [], _ => ([], [])
  | (name, data) :: rest, validation_data =>
      let prev := categorize_instances rest validation_data
      match dictLookup validation_data name with
      | some v =>
          if v.valid then ((name, data) :: prev.1, prev.2)
          else (prev.1, (name, data) :: prev.2)
      | none => ((name, data) :: prev.1, prev.2)

/-- The status strings `'Better'`, `'Equal'`, `'Worse'` assigned by
`calculate_statistics`. -/
inductive Status where
  | Better
  | Equal
  | Worse
  deriving DecidableEq, Repr

/-- The `stats` dictionary of `calculate_statistics`. -/
structure Stats where
  total_instances : Nat
  better : Nat
  equal : Nat
  worse : Nat
  total_improvement : Rat
  total_degradation : Rat
  compared_instances : Nat
  deriving DecidableEq, Repr

/-- The zero-initialised `stats` dictionary (before `total_instances`
is set to the number of valid instances). -/
def emptyStats : Stats :=
  { total_instances := 0, better := 0, equal := 0, worse := 0,
    total_improvement := 0, total_degradation := 0, compared_instances := 0 }

/-- One row appended to `detailed_results` by `calculate_statistics`:
keys `Instance`, `My Cost`, `Best Known`, `Status`, `Difference`,
`Time (min)`. -/
structure CompRow where
  instanceName : String
  myCost : Rat
  bestKnown : Rat
  status : Status
  difference : Rat
  timeMin : Rat
  deriving DecidableEq, Repr

/-- Rounding to the nearest integer with ties to even, as Python's
built-in `round` does (floats abstracted as rationals). -/
def roundHalfEven (q : Rat) : Int :=
  let f : Int := ⌊q⌋
  let frac : Rat := q - f
  if frac < 1 / 2 then f
  else if 1 / 2 < frac then f + 1
  else if f % 2 = 0 then f else f + 1

/-- Python `round(q, 2)`. -/
def round2 (q : Rat) : Rat := (roundHalfEven (q * 100) : Rat) / 100

/-- One iteration of the loop in `calculate_statistics`: an instance
absent from `best_known` is skipped entirely; otherwise
`compared_instances` is incremented, the three-way cost comparison
picks the status, difference and accumulator updates, and a detail row
is recorded. -/
def statsStep (name : String) (data : InstanceData) (best_known : Dict Rat)
    (acc : Stats × List CompRow) : Stats × List CompRow :=
  match dictLookup best_known name with
  | none => acc
  | some best_cost =>
      let stats := acc.1
      let my_cost := data.cost
      if my_cost < best_cost then
        ({ stats with compared_instances := stats.compared_instances + 1,
                      better := stats.better + 1,
                      total_improvement := stats.total_improvement + (best_cost - my_cost) },
         { instanceName := name, myCost := my_cost, bestKnown := best_cost,
           status := Status.Better, difference := best_cost - my_cost,
           timeMin := round2 (data.solving_time_seconds / 60) } :: acc.2)
      else if my_cost = best_cost then
        ({ stats with compared_instances := stats.compared_instances + 1,
                      equal := stats.equal + 1 },
         { instanceName := name, myCost := my_cost, bestKnown := best_cost,
           status := Status.Equal, difference := 0,
           timeMin := round2 (data.solving_time_seconds / 60) } :: acc.2)
      else
        ({ stats with compared_instances := stats.compared_instances + 1,
                      worse := stats.worse + 1,
                      total_degradation := stats.total_degradation + (my_cost - best_cost) },
         { instanceName := name, myCost := my_cost, bestKnown := best_cost,
           status := Status.Worse, difference := my_cost - best_cost,
           timeMin := round2 (data.solving_time_seconds / 60) } :: acc.2)

/-- The loop of `calculate_statistics` over the valid instances, with
all counters starting at zero.  Counter increments commute, and each
row is placed before the rows of the remaining instances, so this
structural recursion produces the same statistics and the same row
order as the imperative loop. -/
def statsGo : Dict InstanceData → Dict Rat → Stats × List CompRow
  | [], _ => (emptyStats, [])
  | (name, data) :: rest, best_known =>
      statsStep name data best_known (statsGo rest best_known)

/-- `calculate_statistics`: runs the comparison loop and sets
`total_instances` to the number of valid instances (done upfront in the
source, before the loop). -/
def calculate_statistics (valid_instances : Dict InstanceData)
    (best_known : Dict Rat) : Stats × List CompRow :=
  let r := statsGo valid_instances best_known
  ({ r.1 with total_instances := valid_instances.length }, r.2)

/-- The performance metric shown by the reporter for a valid instance:
comparison against the best-known cost when available, `N/A` otherwise. -/
inductive Performance where
  | Better : Rat → Performance
  | Equal : Performance
  | Worse : Rat → Performance
  | NA : Performance
  deriving DecidableEq, Repr

/-- What `display_instance_detail` renders for a requested name:
an error when the name is not in results, an invalid-solution marker
(short-circuiting all metrics) when validation marks it invalid, or
the full detail record. -/
inductive ReportOutcome where
  | notFound : ReportOutcome
  | invalidSolution : ReportOutcome
  | detail : Rat → Rat → Option Rat → Performance → String → String → String → ReportOutcome
  deriving DecidableEq, Repr

/-- `display_instance_detail`: reports on one instance.  A name absent
from results is an error; an instance whose validation record says
`valid: false` yields the invalid-solution message and returns before
any metric is computed; otherwise cost, solving time in minutes,
optional best-known cost, performance and the file references are
rendered. -/
def display_instance_detail (instance_name : String)
    (results : Dict InstanceData) (best_known : Dict Rat)
    (validation_data : Dict ValidationItem) : ReportOutcome :=
  match dictLookup results instance_name with
  | none => .notFound
  | some data =>
      if assumedValid validation_data instance_name = false then .invalidSolution
      else
        let perf : Performance :=
          match dictLookup best_known instance_name with
          | some best_cost =>
              if data.cost < best_cost then .Better (best_cost - data.cost)
              else if data.cost = best_cost then .Equal
              else .Worse (data.cost - best_cost)
          | none => .NA
        .detail data.cost (data.solving_time_seconds / 60)
          (dictLookup best_known instance_name) perf
          data.timestamp data.solution_file data.visualization_file

/-- Modelled from the claim under examination (not from the source):
the last entry of the validation list whose normalized key is `k`,
kept by a left fold in list order so that later entries win. -/
def lastMatch (l : List ValidationItem) (k : String) : Option ValidationItem :=
  l.foldl (fun acc it => if basename it.instance_path = k then some it else acc) none

/-- Example per-instance datum used by the concrete scenarios below
(cost 100, solving time 120 s), mirroring Scenario A of the spec. -/
def exData : InstanceData :=
  { cost := 100, solving_time_seconds := 120, timestamp := "t0",
    solution_file := "sol.txt", visualization_file := "viz.png" }

theorem dictLookup_dictInsert {α : Type} (m : Dict α) (k : String) (v : α) (key : String) :
    dictLookup (dictInsert m k v) key = if k = key then some v else dictLookup m key := by
  induction m with
  | nil => simp [dictInsert, dictLookup]
  | cons p rest ih =>
      obtain ⟨k', v'⟩ := p
      by_cases h1 : k' = k
      · subst h1
        by_cases h2 : k' = key <;> simp [dictInsert, dictLookup, h2]
      · by_cases h2 : k' = key
        · subst h2
          have : ¬ k = k' := fun h => h1 h.symm
          simp [dictInsert, dictLookup, h1, this]
        · simp [dictInsert, dictLookup, h1, h2, ih]

theorem dictLookup_foldl_insert (l : List ValidationItem) (m : Dict ValidationItem)
    (k : String) :
    dictLookup (l.foldl (fun acc it => dictInsert acc (basename it.instance_path) it) m) k
      = l.foldl (fun acc it => if basename it.instance_path = k then some it else acc)
          (dictLookup m k) := by
  induction l generalizing m with
  | nil => simp
  | cons it l ih =>
      simp only [List.foldl_cons]
      rw [ih, dictLookup_dictInsert]

theorem statsStep_counts (name : String) (data : InstanceData) (best : Dict Rat)
    (acc : Stats × List CompRow)
    (h1 : acc.1.better + acc.1.equal + acc.1.worse = acc.1.compared_instances)
    (h2 : acc.1.compared_instances = acc.2.length) :
    (statsStep name data best acc).1.better + (statsStep name data best acc).1.equal
        + (statsStep name data best acc).1.worse
      = (statsStep name data best acc).1.compared_instances
    ∧ (statsStep name data best acc).1.compared_instances
      = (statsStep name data best acc).2.length := by
  unfold statsStep
  cases dictLookup best name with
  | none => exact ⟨h1, h2⟩
  | some best_cost =>
      by_cases hlt : data.cost < best_cost
      · constructor <;> simp [hlt] <;> omega
      · by_cases heq : data.cost = best_cost
        · constructor <;> simp [hlt, heq] <;> omega
        · constructor <;> simp [hlt, heq] <;> omega

theorem statsGo_counts (valid : Dict InstanceData) (best : Dict Rat) :
    (statsGo valid best).1.better + (statsGo valid best).1.equal
        + (statsGo valid best).1.worse
      = (statsGo valid best).1.compared_instances
    ∧ (statsGo valid best).1.compared_instances = (statsGo valid best).2.length := by
  induction valid with
  | nil => simp [statsGo, emptyStats]
  | cons p rest ih =>
      obtain ⟨name, data⟩ := p
      exact statsStep_counts name data best (statsGo rest best) ih.1 ih.2

/-- C8: for every input to `calculate_statistics`, the stats satisfy
`better + equal + worse = compared_instances`, and `compared_instances`
equals the length of the returned details list. -/
theorem compare_counts_invariant (valid : Dict InstanceData) (best : Dict Rat) :
    (calculate_statistics valid best).1.better + (calculate_statistics valid best).1.equal
        + (calculate_statistics valid best).1.worse
      = (calculate_statistics valid best).1.compared_instances
    ∧ (calculate_statistics valid best).1.compared_instances
      = (calculate_statistics valid best).2.length := by
  have h := statsGo_counts valid best
  simpa [calculate_statistics] using h

/-- C9: the dict comprehension of `load_data` keys validation entries by
basename with later list entries overwriting earlier ones, so the
mapping keeps exactly the last entry that normalizes to each key. -/
theorem validation_last_wins (l : List ValidationItem) (k : String) :
    dictLookup (buildValidation l) k = lastMatch l k := by
  have h := dictLookup_foldl_insert l [] k
  simpa [buildValidation, lastMatch, dictLookup] using h

/-- C10: a validation file that is present but unparseable raises past
the inner `FileNotFoundError` handler, so `load_data` discards the
already-loaded results and best-known data and returns all three
mappings empty with the error shown; only an absent validation file is
tolerated, yielding a warning and an empty validation mapping while the
mandatory data is kept. -/
theorem load_validation_parse_failure (results : Dict InstanceData) (best : Dict Rat) :
    load_data (.ok results) (.ok best) .malformed
      = { results := [], best_known := [], validation_data := [],
          errorShown := true, warningShown := false }
    ∧ load_data (.ok results) (.ok best) .missing
      = { results := results, best_known := best, validation_data := [],
          errorShown := false, warningShown := true } :=
  ⟨rfl, rfl⟩

theorem statsGo_row (valid : Dict InstanceData) (best : Dict Rat) (row : CompRow)
    (hmem : row ∈ (statsGo valid best).2) :
    (row.status = Status.Better ↔ row.myCost < row.bestKnown)
    ∧ (row.status = Status.Equal ↔ row.myCost = row.bestKnown)
    ∧ (row.status = Status.Worse ↔ row.bestKnown < row.myCost)
    ∧ row.difference = |row.myCost - row.bestKnown| := by
  induction valid with
  | nil => simp [statsGo] at hmem
  | cons p rest ih =>
      obtain ⟨name, data⟩ := p
      rw [statsGo] at hmem
      unfold statsStep at hmem
      cases hb : dictLookup best name with
      | none =>
          rw [hb] at hmem
          exact ih hmem
      | some best_cost =>
          rw [hb] at hmem
          by_cases hlt : data.cost < best_cost
          · simp only [if_pos hlt, List.mem_cons] at hmem
            rcases hmem with rfl | hmem
            · have habs : |data.cost - best_cost| = best_cost - data.cost := by
                rw [abs_sub_comm]
                exact abs_of_pos (sub_pos.mpr hlt)
              refine ⟨?_, ?_, ?_, ?_⟩ <;>
                simp [hlt, ne_of_lt hlt, lt_asymm hlt, habs]
            · exact ih hmem
          · by_cases heq : data.cost = best_cost
            · simp only [if_neg hlt, if_pos heq, List.mem_cons] at hmem
              rcases hmem with rfl | hmem
              · refine ⟨?_, ?_, ?_, ?_⟩ <;> simp [hlt, heq]
              · exact ih hmem
            · simp only [if_neg hlt, if_neg heq, List.mem_cons] at hmem
              rcases hmem with rfl | hmem
              · have hgt : best_cost < data.cost :=
                  lt_of_le_of_ne (not_lt.mp hlt) (fun h => heq h.symm)
                have habs : |data.cost - best_cost| = data.cost - best_cost :=
                  abs_of_pos (sub_pos.mpr hgt)
                refine ⟨?_, ?_, ?_, ?_⟩ <;>
                  simp [hgt, heq, lt_asymm hgt, habs]
              · exact ih hmem

/-- C1: every detail row produced by `calculate_statistics` carries
status Better iff `my_cost < best_cost`, Equal iff the costs are equal,
Worse iff `my_cost > best_cost`, and a difference equal to the absolute
gap between the two costs. -/
theorem compare_status_difference (valid : Dict InstanceData) (best : Dict Rat)
    (row : CompRow) (hmem : row ∈ (calculate_statistics valid best).2) :
    (row.status = Status.Better ↔ row.myCost < row.bestKnown)
    ∧ (row.status = Status.Equal ↔ row.myCost = row.bestKnown)
    ∧ (row.status = Status.Worse ↔ row.bestKnown < row.myCost)
    ∧ row.difference = |row.myCost - row.bestKnown| := by
  have hdet : (calculate_statistics valid best).2 = (statsGo valid best).2 := rfl
  exact statsGo_row valid best row (hdet ▸ hmem)

/-- The single detail row produced in Scenario A (cost 100 against
best-known 90): Worse with difference 10, solving time 2 minutes. -/
def c1row : CompRow :=
  { instanceName := "inst1", myCost := 100, bestKnown := 90,
    status := Status.Worse, difference := 10, timeMin := 2 }

/-- Witness for C1 at Scenario A: cost 100 against best-known 90
produces a Worse row with difference 10. -/
theorem compare_status_difference_witness :
    (c1row.status = Status.Better ↔ c1row.myCost < c1row.bestKnown)
    ∧ (c1row.status = Status.Equal ↔ c1row.myCost = c1row.bestKnown)
    ∧ (c1row.status = Status.Worse ↔ c1row.bestKnown < c1row.myCost)
    ∧ c1row.difference = |c1row.myCost - c1row.bestKnown| :=
  compare_status_difference [("inst1", exData)] [("inst1", (90 : Rat))] c1row
    (by
      have h : (calculate_statistics [("inst1", exData)] [("inst1", (90 : Rat))]).2
          = [c1row] := by
        simp only [calculate_statistics, statsGo, statsStep, dictLookup, emptyStats,
          exData, c1row]
        norm_num [round2, roundHalfEven]
      rw [h]
      exact List.mem_singleton_self c1row)

/-- Valid-instances mapping for the C5 counterexample: one instance,
no overlap with the (empty) best-known table. -/
def c5valid : Dict InstanceData := [("inst1", exData)]

/-- C5 counterexample: with one valid instance and an empty best-known
table the key sets are disjoint and `compared_instances = 0`, yet the
`total_instances` field of the returned stats is 1, not 0 — so not
every stats field is zero. -/
theorem compare_no_overlap_counterexample :
    (∀ p ∈ c5valid, dictLookup ([] : Dict Rat) p.1 = none)
    ∧ (calculate_statistics c5valid ([] : Dict Rat)).1.compared_instances = 0
    ∧ (calculate_statistics c5valid ([] : Dict Rat)).1.total_instances ≠ 0 := by
  decide

/-- C5 amended: when no key of the valid-instances mapping occurs in
the best-known table, `calculate_statistics` returns details empty and
every stats field zero except `total_instances`, which equals the
number of valid instances. -/
theorem compare_no_overlap (valid : Dict InstanceData) (best : Dict Rat)
    (h : ∀ p ∈ valid, dictLookup best p.1 = none) :
    (calculate_statistics valid best).1.total_instances = valid.length
    ∧ (calculate_statistics valid best).1.better = 0
    ∧ (calculate_statistics valid best).1.equal = 0
    ∧ (calculate_statistics valid best).1.worse = 0
    ∧ (calculate_statistics valid best).1.total_improvement = 0
    ∧ (calculate_statistics valid best).1.total_degradation = 0
    ∧ (calculate_statistics valid best).1.compared_instances = 0
    ∧ (calculate_statistics valid best).2 = [] := by
  have hgo : statsGo valid best = (emptyStats, []) := by
    induction valid with
    | nil => rfl
    | cons p rest ih =>
        obtain ⟨name, data⟩ := p
        have hname : dictLookup best name = none := h (name, data) (List.mem_cons_self _ _)
        have hrest : ∀ q ∈ rest, dictLookup best q.1 = none :=
          fun q hq => h q (List.mem_cons_of_mem _ hq)
        rw [statsGo, ih hrest]
        unfold statsStep
        rw [hname]
  simp [calculate_statistics, hgo, emptyStats]

/-- Witness for C5 (amended) on a one-instance mapping disjoint from a
one-entry best-known table. -/
theorem compare_no_overlap_witness :
    (∀ p ∈ [("a", exData)], dictLookup [("b", (5 : Rat))] p.1 = none)
    ∧ (calculate_statistics [("a", exData)] [("b", (5 : Rat))]).1.total_instances
        = [("a", exData)].length
    ∧ (calculate_statistics [("a", exData)] [("b", (5 : Rat))]).2 = [] := by
  refine ⟨by decide, ?_, ?_⟩
  · exact (compare_no_overlap [("a", exData)] [("b", (5 : Rat))] (by decide)).1
  · exact (compare_no_overlap [("a", exData)] [("b", (5 : Rat))] (by decide)).2.2.2.2.2.2.2

/-- C2: whenever a mandatory source (the results file or the best-known
file) is missing or unparseable, `load_data` takes its error path:
the blocking error is shown and no loaded data is returned (all three
mappings are empty), as opposed to a normal successful result. -/
theorem load_mandatory_failure (rf : FileRead (Dict InstanceData))
    (bf : FileRead (Dict Rat)) (vf : FileRead (List ValidationItem))
    (h : rf.failed = true ∨ bf.failed = true) :
    (load_data rf bf vf).errorShown = true
    ∧ (load_data rf bf vf).results = []
    ∧ (load_data rf bf vf).best_known = []
    ∧ (load_data rf bf vf).validation_data = [] := by
  cases rf with
  | missing => simp [load_data]
  | malformed => simp [load_data]
  | ok results =>
      cases bf with
      | missing => simp [load_data]
      | malformed => simp [load_data]
      | ok best => simp [FileRead.failed] at h

/-- Witness for C2: a missing results file. -/
theorem load_mandatory_failure_witness :
    (FileRead.missing : FileRead (Dict InstanceData)).failed = true
    ∧ (load_data .missing (.ok []) (.ok [])).errorShown = true
    ∧ (load_data .missing (.ok []) (.ok [])).results = [] :=
  ⟨rfl,
   (load_mandatory_failure .missing (.ok []) (.ok []) (Or.inl rfl)).1,
   (load_mandatory_failure .missing (.ok []) (.ok []) (Or.inl rfl)).2.1⟩

/-- Results mapping for the C4 scenario, keyed by the bare filename. -/
def c4_results : Dict InstanceData := [("inst1.txt", exData)]

/-- Validation list for the C4 scenario, with a path-qualified
instance identifier and `valid: false`. -/
def c4_vlist : List ValidationItem := [{ instance_path := "path/to/inst1.txt", valid := false }]

/-- C4: a validation entry for `path/to/inst1.txt` is keyed by its
final path component, so the loaded validation mapping has key
`inst1.txt`; `categorize_instances` then places the `inst1.txt` result
in the invalid mapping, and `display_instance_detail` on `inst1.txt`
returns the invalid-solution marker instead of a detail record. -/
theorem validation_basename_keying :
    dictLookup (load_data (.ok c4_results) (.ok []) (.ok c4_vlist)).validation_data "inst1.txt"
      = some { instance_path := "path/to/inst1.txt", valid := false }
    ∧ (categorize_instances c4_results
        (load_data (.ok c4_results) (.ok []) (.ok c4_vlist)).validation_data).2
      = [("inst1.txt", exData)]
    ∧ (categorize_instances c4_results
        (load_data (.ok c4_results) (.ok []) (.ok c4_vlist)).validation_data).1 = []
    ∧ display_instance_detail "inst1.txt" c4_results []
        (load_data (.ok c4_results) (.ok []) (.ok c4_vlist)).validation_data
      = ReportOutcome.invalidSolution := by
  decide

theorem categorize_cons (name : String) (data : InstanceData)
    (rest : Dict InstanceData) (vd : Dict ValidationItem) :
    categorize_instances ((name, data) :: rest) vd =
      if assumedValid vd name = true then
        ((name, data) :: (categorize_instances rest vd).1, (categorize_instances rest vd).2)
      else
        ((categorize_instances rest vd).1, (name, data) :: (categorize_instances rest vd).2) := by
  rw [categorize_instances]
  unfold assumedValid
  cases hv : dictLookup vd name with
  | none => simp
  | some v => cases hvb : v.valid <;> simp

theorem mem_categorize_valid (results : Dict InstanceData) (vd : Dict ValidationItem)
    (p : String × InstanceData) :
    p ∈ (categorize_instances results vd).1 ↔ p ∈ results ∧ assumedValid vd p.1 = true := by
  induction results with
  | nil => simp [categorize_instances]
  | cons q rest ih =>
      obtain ⟨name, data⟩ := q
      rw [categorize_cons]
      by_cases hav : assumedValid vd name = true
      · rw [if_pos hav]
        show p ∈ (name, data) :: (categorize_instances rest vd).1 ↔ _
        rw [List.mem_cons, List.mem_cons, ih]
        constructor
        · rintro (h1 | ⟨hm, h2⟩)
          · exact ⟨Or.inl h1, by rw [h1]; exact hav⟩
          · exact ⟨Or.inr hm, h2⟩
        · rintro ⟨h1 | hm, h2⟩
          · exact Or.inl h1
          · exact Or.inr ⟨hm, h2⟩
      · rw [if_neg hav]
        show p ∈ (categorize_instances rest vd).1 ↔ _
        rw [List.mem_cons, ih]
        constructor
        · rintro ⟨hm, h2⟩
          exact ⟨Or.inr hm, h2⟩
        · rintro ⟨h1 | hm, h2⟩
          · have h2' : assumedValid vd name = true := by rw [h1] at h2; exact h2
            exact absurd h2' hav
          · exact ⟨hm, h2⟩

theorem mem_categorize_invalid (results : Dict InstanceData) (vd : Dict ValidationItem)
    (p : String × InstanceData) :
    p ∈ (categorize_instances results vd).2 ↔ p ∈ results ∧ assumedValid vd p.1 = false := by
  induction results with
  | nil => simp [categorize_instances]
  | cons q rest ih =>
      obtain ⟨name, data⟩ := q
      rw [categorize_cons]
      by_cases hav : assumedValid vd name = true
      · rw [if_pos hav]
        show p ∈ (categorize_instances rest vd).2 ↔ _
        rw [List.mem_cons, ih]
        constructor
        · rintro ⟨hm, h2⟩
          exact ⟨Or.inr hm, h2⟩
        · rintro ⟨h1 | hm, h2⟩
          · have h2' : assumedValid vd name = false := by rw [h1] at h2; exact h2
            exact absurd hav (by simp [h2'])
          · exact ⟨hm, h2⟩
      · rw [if_neg hav]
        have havf : assumedValid vd name = false := by
          cases h : assumedValid vd name
          · rfl
          · exact absurd h hav
        show p ∈ (name, data) :: (categorize_instances rest vd).2 ↔ _
        rw [List.mem_cons, List.mem_cons, ih]
        constructor
        · rintro (h1 | ⟨hm, h2⟩)
          · exact ⟨Or.inl h1, by rw [h1]; exact havf⟩
          · exact ⟨Or.inr hm, h2⟩
        · rintro ⟨h1 | hm, h2⟩
          · exact Or.inl h1
          · exact Or.inr ⟨hm, h2⟩

theorem categorize_append_perm (results : Dict InstanceData) (vd : Dict ValidationItem) :
    ((categorize_instances results vd).1 ++ (categorize_instances results vd).2).Perm
      results := by
  induction results with
  | nil => simp [categorize_instances]
  | cons q rest ih =>
      obtain ⟨name, data⟩ := q
      rw [categorize_cons]
      by_cases hav : assumedValid vd name = true
      · rw [if_pos hav]
        exact ih.cons (name, data)
      · rw [if_neg hav]
        exact List.perm_middle.trans (ih.cons (name, data))

/-- C3: `categorize_instances` partitions the results: the two returned
mappings together are a permutation of the input, an entry of the input
lies in the valid or the invalid mapping, and no entry lies in both. -/
theorem categorize_partition (results : Dict InstanceData) (vd : Dict ValidationItem) :
    ((categorize_instances results vd).1 ++ (categorize_instances results vd).2).Perm results
    ∧ (∀ p : String × InstanceData,
        p ∈ results ↔
          p ∈ (categorize_instances results vd).1 ∨ p ∈ (categorize_instances results vd).2)
    ∧ ∀ p : String × InstanceData,
        ¬ (p ∈ (categorize_instances results vd).1 ∧ p ∈ (categorize_instances results vd).2) := by
  refine ⟨categorize_append_perm results vd, fun p => ?_, fun p ⟨h1, h2⟩ => ?_⟩
  · rw [mem_categorize_valid, mem_categorize_invalid]
    cases hav : assumedValid vd p.1 <;> simp [hav]
  · rw [mem_categorize_valid] at h1
    rw [mem_categorize_invalid] at h2
    rw [h1.2] at h2
    exact absurd h2.2 (by simp)

/-- Witness for C3: the partition property applied to a concrete
two-instance mapping with one invalid instance. -/
theorem categorize_partition_witness :
    ((categorize_instances [("a", exData), ("b", exData)] [("b", ⟨"b", false⟩)]).1
        ++ (categorize_instances [("a", exData), ("b", exData)] [("b", ⟨"b", false⟩)]).2).Perm
      [("a", exData), ("b", exData)] :=
  (categorize_partition [("a", exData), ("b", exData)] [("b", ⟨"b", false⟩)]).1

/-- C6: an instance absent from the validation mapping is classified
valid, and an instance lands in the invalid mapping only when the
validation mapping holds its name with `valid = false`. -/
theorem classify_default_valid (results : Dict InstanceData) (vd : Dict ValidationItem)
    (name : String) (data : InstanceData) :
    ((name, data) ∈ results → dictLookup vd name = none →
        (name, data) ∈ (categorize_instances results vd).1)
    ∧ ((name, data) ∈ (categorize_instances results vd).2 →
        ∃ v, dictLookup vd name = some v ∧ v.valid = false) := by
  constructor
  · intro hmem hnone
    rw [mem_categorize_valid]
    exact ⟨hmem, by simp [assumedValid, hnone]⟩
  · intro hmem
    rw [mem_categorize_invalid] at hmem
    have hav := hmem.2
    unfold assumedValid at hav
    cases hv : dictLookup vd name with
    | none => rw [hv] at hav; exact absurd hav (by simp)
    | some v =>
        rw [hv] at hav
        exact ⟨v, rfl, hav⟩

/-- Witness for C6: an instance with no validation entry ends up in the
valid mapping. -/
theorem classify_default_valid_witness :
    ("x", exData) ∈ ([("x", exData)] : Dict InstanceData)
    ∧ dictLookup ([] : Dict ValidationItem) "x" = none
    ∧ ("x", exData) ∈ (categorize_instances [("x", exData)] []).1 :=
  ⟨List.mem_singleton_self _, rfl,
   (classify_default_valid [("x", exData)] [] "x" exData).1 (List.mem_singleton_self _) rfl⟩

theorem statsGo_row_lookup (valid : Dict InstanceData) (best : Dict Rat) (row : CompRow)
    (hmem : row ∈ (statsGo valid best).2) :
    dictLookup best row.instanceName = some row.bestKnown := by
  induction valid with
  | nil => simp [statsGo] at hmem
  | cons p rest ih =>
      obtain ⟨name, data⟩ := p
      rw [statsGo] at hmem
      unfold statsStep at hmem
      cases hb : dictLookup best name with
      | none =>
          rw [hb] at hmem
          exact ih hmem
      | some best_cost =>
          rw [hb] at hmem
          by_cases hlt : data.cost < best_cost
          · simp only [if_pos hlt, List.mem_cons] at hmem
            rcases hmem with rfl | hmem
            · exact hb
            · exact ih hmem
          · by_cases heq : data.cost = best_cost
            · simp only [if_neg hlt, if_pos heq, List.mem_cons] at hmem
              rcases hmem with rfl | hmem
              · exact hb
              · exact ih hmem
            · simp only [if_neg hlt, if_neg heq, List.mem_cons] at hmem
              rcases hmem with rfl | hmem
              · exact hb
              · exact ih hmem

/-- C7: a valid instance whose name is absent from the best-known table
is excluded from the comparison entirely: removing its entries from the
valid mapping changes neither the accumulated statistics nor the detail
rows, and no detail row carries its name. -/
theorem compare_excludes_unknown (valid : Dict InstanceData) (best : Dict Rat)
    (name : String) (h : dictLookup best name = none) :
    statsGo (valid.filter (fun p => p.1 != name)) best = statsGo valid best
    ∧ ∀ row ∈ (calculate_statistics valid best).2, row.instanceName ≠ name := by
  constructor
  · induction valid with
    | nil => rfl
    | cons p rest ih =>
        obtain ⟨n, data⟩ := p
        by_cases hn : n = name
        · subst hn
          have hstep : statsGo ((n, data) :: rest) best = statsGo rest best := by
            rw [statsGo]; unfold statsStep; rw [h]
          simpa [List.filter_cons, hstep] using ih
        · have hne : (n != name) = true := by simp [hn]
          simp only [List.filter_cons, hne, if_true]
          rw [statsGo, statsGo, ih]
  · intro row hmem hname
    have hlook := statsGo_row_lookup valid best row hmem
    rw [hname, h] at hlook
    exact Option.noConfusion hlook

/-- Witness for C7: with the best-known table lacking `inst2`, removing
`inst2` from the valid mapping leaves the comparison output unchanged. -/
theorem compare_excludes_unknown_witness :
    dictLookup [("inst1", (90 : Rat))] "inst2" = none
    ∧ statsGo (([("inst1", exData), ("inst2", exData)] :
          Dict InstanceData).filter (fun p => p.1 != "inst2")) [("inst1", (90 : Rat))]
      = statsGo [("inst1", exData), ("inst2", exData)] [("inst1", (90 : Rat))] :=
  ⟨rfl,
   (compare_excludes_unknown [("inst1", exData), ("inst2", exData)] [("inst1", (90 : Rat))]
      "inst2" rfl).1⟩

end FCVRP
